import Mathlib

set_option maxHeartbeats 1600000
set_option maxRecDepth 100000

/-!
Verification development for the SMS-to-transaction extraction engine of the
financio repository (src/utils/smsParser.ts): the functions parseBankSMS and
categorizeTransaction.  Strings are modelled as lists of characters, the
JavaScript regular expressions used by the source are modelled by a small
backtracking matcher whose result list follows the JavaScript priority order
(leftmost match, greedy or lazy quantifiers, ordered alternation), and the
JavaScript number produced by parseFloat is modelled as an Option over the
rationals, with none standing for NaN.  Every quantifier occurring in the
source's patterns ranges over a single-character class, which the regex type
below reflects.
-/

/-- ASCII lowercasing of one character; models the effect of the JavaScript
case-insensitivity flag on the ASCII alphabet used by all patterns of the
source. -/
def lowerCh (c : Char) : Char :=
  if 65 ≤ c.toNat ∧ c.toNat ≤ 90 then Char.ofNat (c.toNat + 32) else c

/-- The JavaScript whitespace class (the characters matched by a backslash-s
pattern and removed by String.prototype.trim). -/
def isWS (c : Char) : Bool :=
  c.toNat = 32 || c.toNat = 9 || c.toNat = 10 || c.toNat = 11 || c.toNat = 12 ||
  c.toNat = 13 || c.toNat = 160 || c.toNat = 5760 ||
  (8192 ≤ c.toNat && c.toNat ≤ 8202) || c.toNat = 8232 || c.toNat = 8233 ||
  c.toNat = 8239 || c.toNat = 8287 || c.toNat = 12288 || c.toNat = 65279

/-- The JavaScript digit class (ASCII 0-9). -/
def isDigit (c : Char) : Bool := 48 ≤ c.toNat && c.toNat ≤ 57

/-- The character class of digits and commas used by the amount patterns. -/
def clsDC (c : Char) : Bool := isDigit c || c.toNat = 44

/-- The class holding exactly the full stop character. -/
def isDotCh (c : Char) : Bool := c.toNat = 46

/-- The JavaScript dot metacharacter: any character except a line terminator. -/
def clsAny (c : Char) : Bool :=
  !(c.toNat = 10 || c.toNat = 13 || c.toNat = 8232 || c.toNat = 8233)

/-- ASCII letters, both cases. -/
def isAsciiAlpha (c : Char) : Bool :=
  (65 ≤ c.toNat && c.toNat ≤ 90) || (97 ≤ c.toNat && c.toNat ≤ 122)

/-- The merchant-name class: letters, whitespace and parentheses (the source
class ranges over capital letters only, but carries the case-insensitivity
flag). -/
def clsMerchant (c : Char) : Bool :=
  isAsciiAlpha c || isWS c || c.toNat = 40 || c.toNat = 41

/-- The class of the letters A and P, case-insensitively. -/
def clsAP (c : Char) : Bool :=
  c.toNat = 65 || c.toNat = 80 || c.toNat = 97 || c.toNat = 112

/-- ASCII letters and digits. -/
def clsAlnum (c : Char) : Bool := isAsciiAlpha c || isDigit c

/-- The class holding exactly the asterisk character. -/
def clsStarCh (c : Char) : Bool := c.toNat = 42

/-- The class holding exactly the colon character. -/
def clsColon (c : Char) : Bool := c.toNat = 58

/-- Regular expressions as used by the source: literals (matched
case-insensitively), single-character classes, sequencing, ordered
alternation, quantified character classes (greedy or lazy), and numbered
capture groups.  Every quantifier of the source applies to a one-character
class, so the star constructor carries a class rather than a subexpression. -/
inductive RE where
  | eps : RE
  | lit : List Char → RE
  | cls : (Char → Bool) → RE
  | seq : RE → RE → RE
  | alt : RE → RE → RE
  | star : (Char → Bool) → Bool → RE
  | grp : Nat → RE → RE

/-- Case-insensitive prefix stripping: returns the consumed input characters
and the remaining input when the literal matches the front of the input. -/
def stripPrefixCI : List Char → List Char → Option (List Char × List Char)
  | [], s => some ([], s)
  | _ :: _, [] => none
  | a :: w, c :: s =>
    if lowerCh a = lowerCh c then
      (stripPrefixCI w s).map (fun q => (c :: q.1, q.2))
    else none

/-- One partial match: the consumed characters, the remaining input, and the
capture-group assignments made so far. -/
structure MRes where
  pre : List Char
  rest : List Char
  caps : List (Nat × List Char)
deriving DecidableEq, Repr

/-- All ways a quantified character class can split the input, as pairs of
consumed characters and remaining input, in JavaScript priority order:
greedy quantifiers yield the longest split first, lazy ones the shortest. -/
def starSplits (p : Char → Bool) (lazyQ : Bool) : List Char → List (List Char × List Char)
  | [] => [([], [])]
  | c :: s =>
    if p c then
      if lazyQ then
        ([], c :: s) :: (starSplits p lazyQ s).map (fun q => (c :: q.1, q.2))
      else
        (starSplits p lazyQ s).map (fun q => (c :: q.1, q.2)) ++ [([], c :: s)]
    else [([], c :: s)]

/-- All matches of a regular expression against a prefix of the input, in
JavaScript backtracking priority order; the head of the list is the match the
JavaScript engine reports. -/
def mres : RE → List Char → List MRes
  | .eps, s => [⟨[], s, []⟩]
  | .lit w, s =>
    match stripPrefixCI w s with
    | some q => [⟨q.1, q.2, []⟩]
    | none => []
  | .cls p, s =>
    match s with
    | [] => []
    | c :: r => if p c then [⟨[c], r, []⟩] else []
  | .seq a b, s =>
    (mres a s).flatMap (fun m =>
      (mres b m.rest).map (fun m2 => ⟨m.pre ++ m2.pre, m2.rest, m.caps ++ m2.caps⟩))
  | .alt a b, s => mres a s ++ mres b s
  | .star p lz, s => (starSplits p lz s).map (fun q => ⟨q.1, q.2, []⟩)
  | .grp n r, s =>
    (mres r s).map (fun m => ⟨m.pre, m.rest, m.caps ++ [(n, m.pre)]⟩)

/-- The capture groups of the match the engine reports at the current input
position, if any. -/
def execAt (re : RE) (s : List Char) : Option (List (Nat × List Char)) :=
  (mres re s).head?.map MRes.caps

/-- JavaScript String.prototype.match without the global flag: try each start
position from the left and report the first position with a match. -/
def execSearch (re : RE) : List Char → Option (List (Nat × List Char))
  | [] => execAt re []
  | c :: t =>
    match execAt re (c :: t) with
    | some caps => some caps
    | none => execSearch re t

/-- The contents of a numbered capture group of a reported match. -/
def capGet (caps : List (Nat × List Char)) (n : Nat) : Option (List Char) :=
  (caps.find? (fun q => q.1 = n)).map (fun q => q.2)

/-- A right-nested ordered alternation of case-insensitive literals. -/
def altLits : List (List Char) → RE
  | [] => .cls (fun _ => false)
  | [w] => .lit w
  | w :: ws => .alt (.lit w) (altLits ws)

/-- A one-or-more quantifier over a character class, greedy. -/
def rePlus (p : Char → Bool) : RE := .seq (.cls p) (.star p false)

/-- A one-or-more quantifier over a character class, lazy. -/
def rePlusLazy (p : Char → Bool) : RE := .seq (.cls p) (.star p true)

/-- A fixed-count repetition of a character class. -/
def repN (p : Char → Bool) : Nat → RE
  | 0 => .eps
  | n + 1 => .seq (.cls p) (repN p n)

/-- An optional single character, greedy (the question-mark quantifier). -/
def reOpt (p : Char → Bool) : RE := .alt (.cls p) .eps

/-! Patterns of parseBankSMS, one definition per source regular expression. -/

/-- The amount shape: one or more digits or commas, an optional full stop,
then any number of digits. -/
def amountNum : RE := .seq (rePlus clsDC) (.seq (reOpt isDotCh) (.star isDigit false))

/-- Amount pattern 1 of the source. -/
def amountRe1 : RE := .seq (.lit ("BDT".toList)) (.seq (.star isWS false) (.grp 1 amountNum))

/-- Amount pattern 2 of the source. -/
def amountRe2 : RE :=
  .seq (.lit ("charged for BDT".toList)) (.seq (.star isWS false) (.grp 1 amountNum))

/-- Amount pattern 3 of the source. -/
def amountRe3 : RE := .seq (.grp 1 amountNum) (.seq (.star isWS false) (.lit ("withdrawn".toList)))

/-- Amount pattern 4 of the source. -/
def amountRe4 : RE :=
  .seq (.lit ("amount".toList)) (.seq (reOpt clsColon) (.seq (.star isWS false)
    (.seq (.lit ("BDT".toList)) (.seq (.star isWS false) (.grp 1 amountNum)))))

/-- The ordered amount pattern table of the source. -/
def amountREs : List RE := [amountRe1, amountRe2, amountRe3, amountRe4]

/-- Account pattern 1 of the source. -/
def accountRe1 : RE :=
  .seq (.lit ("A/C (".toList)) (.seq (rePlus clsStarCh)
    (.seq (.grp 1 (rePlus isDigit)) (.lit (")".toList))))

/-- Account pattern 2 of the source. -/
def accountRe2 : RE := .seq (.lit ("Card#".toList)) (.grp 1 (rePlus isDigit))

/-- Account pattern 3 of the source: the word account, a lazy gap, then four
digits. -/
def accountRe3 : RE :=
  .seq (.lit ("account".toList)) (.seq (.star clsAny true) (.grp 1 (repN isDigit 4)))

/-- The ordered account pattern table of the source. -/
def accountREs : List RE := [accountRe1, accountRe2, accountRe3]

/-- Balance pattern 1 of the source. -/
def balanceRe1 : RE :=
  .seq (.lit ("Avl Bal:".toList)) (.seq (.star isWS false)
    (.seq (.lit ("BDT".toList)) (.seq (.star isWS false) (.grp 1 amountNum))))

/-- Balance pattern 2 of the source (no currency token). -/
def balanceRe2 : RE := .seq (.lit ("Avl Bal:".toList)) (.seq (.star isWS false) (.grp 1 amountNum))

/-- Balance pattern 3 of the source. -/
def balanceRe3 : RE :=
  .seq (.lit ("Available Balance:".toList)) (.seq (.star isWS false)
    (.seq (.lit ("BDT".toList)) (.seq (.star isWS false) (.grp 1 amountNum))))

/-- Balance pattern 4 of the source. -/
def balanceRe4 : RE :=
  .seq (.lit ("Balance:".toList)) (.seq (.star isWS false)
    (.seq (.lit ("BDT".toList)) (.seq (.star isWS false) (.grp 1 amountNum))))

/-- The ordered balance pattern table of the source. -/
def balanceREs : List RE := [balanceRe1, balanceRe2, balanceRe3, balanceRe4]

/-- The clock-time token: one or two digits, a colon, two digits, optional
whitespace, A or P, then M. -/
def timeTok : RE :=
  .seq (.cls isDigit) (.seq (reOpt isDigit) (.seq (.lit (":".toList))
    (.seq (repN isDigit 2) (.seq (.star isWS false) (.seq (.cls clsAP) (.lit ("M".toList)))))))

/-- The date token: three two-digit groups separated by slashes. -/
def dateTok : RE :=
  .seq (repN isDigit 2) (.seq (.lit ("/".toList))
    (.seq (repN isDigit 2) (.seq (.lit ("/".toList)) (repN isDigit 2))))

/-- The hour-minute token of the third timestamp pattern. -/
def hmTok : RE := .seq (repN isDigit 2) (.seq (.lit (":".toList)) (repN isDigit 2))

/-- Timestamp pattern 1 of the source. -/
def tsRe1 : RE := .seq (.lit ("@".toList)) (.seq (.star isWS false) (.grp 1 timeTok))

/-- Timestamp pattern 2 of the source. -/
def tsRe2 : RE := .seq (.lit ("at".toList)) (.seq (.star isWS false) (.grp 1 timeTok))

/-- Timestamp pattern 3 of the source: a date capture and a time capture. -/
def tsRe3 : RE :=
  .seq (.lit ("on".toList)) (.seq (.star isWS false)
    (.seq (.grp 1 dateTok) (.seq (.star isWS false) (.grp 2 hmTok))))

/-- The ordered timestamp pattern table of the source. -/
def tsREs : List RE := [tsRe1, tsRe2, tsRe3]

/-- The merchant-description pattern of the source: at, whitespace, a lazy
merchant name, whitespace, on, whitespace, a date. -/
def merchantRe : RE :=
  .seq (.lit ("at".toList)) (.seq (rePlus isWS)
    (.seq (.grp 1 (rePlusLazy clsMerchant)) (.seq (rePlus isWS)
      (.seq (.lit ("on".toList)) (.seq (rePlus isWS) dateTok)))))

/-- The ATM-description pattern of the source. -/
def atmRe : RE :=
  .seq (.lit ("at".toList)) (.seq (rePlus isWS)
    (.grp 1 (.alt (.lit ("UCBL ATM".toList)) (.lit ("NPSB ATM".toList)))))

/-- The inward-credit description pattern of the source. -/
def beftnRe : RE := .lit ("Beftn Inward Credit".toList)

/-- The online-transfer description pattern of the source. -/
def onlineRe : RE :=
  .alt (.seq (.lit ("I Banking".toList)) (.seq (.star clsAny false) (.lit ("Transfer".toList))))
    (.lit ("Fund Transfer".toList))

/-- The service-charge description pattern of the source. -/
def npsbRe : RE := .lit ("NPSB CHARGE".toList)

/-- The reversal description pattern of the source. -/
def reversedRe : RE := .lit ("reversed".toList)

/-- Reference pattern 1 of the source. -/
def refRe1 : RE := .seq (.lit ("For query:".toList)) (.seq (.star isWS false) (.grp 1 (rePlus isDigit)))

/-- Reference pattern 2 of the source. -/
def refRe2 : RE := .seq (.lit ("CL ID:".toList)) (.seq (.star isWS false) (.grp 1 (rePlus isDigit)))

/-- Reference pattern 3 of the source. -/
def refRe3 : RE := .seq (.lit ("Ref:".toList)) (.seq (.star isWS false) (.grp 1 (rePlus clsAlnum)))

/-- The ordered reference pattern table of the source. -/
def refREs : List RE := [refRe1, refRe2, refRe3]

/-- The credit vocabulary of the source, in source order. -/
def creditWords : List (List Char) :=
  [("credited".toList), ("credit".toList), ("deposit".toList), ("inward credit".toList),
   ("reversed".toList)]

/-- The debit vocabulary of the source, in source order. -/
def debitWords : List (List Char) :=
  [("debited".toList), ("debit".toList), ("charged".toList), ("withdrawn".toList)]

/-- The credit-vocabulary alternation regular expression of the source. -/
def creditRe : RE := altLits creditWords

/-- The debit-vocabulary alternation regular expression of the source. -/
def debitRe : RE := altLits debitWords

/-! The normalizer and the field extraction pipeline of parseBankSMS. -/

/-- The first normalization step of the source: every newline becomes a
space. -/
def replaceNL (s : List Char) : List Char :=
  s.map (fun c => if c.toNat = 10 then ' ' else c)

/-- The second normalization step: every maximal whitespace run becomes one
space; the flag records whether the previous character was whitespace. -/
def collapseGo : Bool → List Char → List Char
  | _, [] => []
  | prevWS, c :: s =>
    if isWS c then
      if prevWS then collapseGo true s else ' ' :: collapseGo true s
    else c :: collapseGo false s

/-- JavaScript String.prototype.trim on both ends. -/
def trimWS (s : List Char) : List Char :=
  ((s.dropWhile isWS).reverse.dropWhile isWS).reverse

/-- The normalizer of the source: newlines to spaces, whitespace runs
collapsed, ends trimmed. -/
def normalizeSMS (s : List Char) : List Char :=
  trimWS (collapseGo false (replaceNL s))

/-- The transaction kind. -/
inductive TxType where
  | debit : TxType
  | credit : TxType
deriving DecidableEq, Repr

/-- Kind resolution of the source: the credit vocabulary is consulted first,
then the debit vocabulary; neither matching fails the extraction. -/
def detectType (cleanMessage : List Char) : Option TxType :=
  if (execSearch creditRe cleanMessage).isSome then some TxType.credit
  else if (execSearch debitRe cleanMessage).isSome then some TxType.debit
  else none

/-- The numeric value of a digit character. -/
def digitVal (c : Char) : Nat := c.toNat - 48

/-- The natural number denoted by a digit string (most significant first). -/
def natOfDigits (ds : List Char) : Nat :=
  ds.foldl (fun a c => 10 * a + digitVal c) 0

/-- Comma removal, as performed by the source before parsing an amount. -/
def stripCommas (s : List Char) : List Char :=
  s.filter (fun c => !(c.toNat = 44))

/-- JavaScript parseFloat restricted to the strings that can reach it here:
a capture of digits, commas and at most one full stop, with the commas already
removed.  The result none models NaN; otherwise the exact rational value is
returned. -/
def parseAmt (s : List Char) : Option ℚ :=
  let ip := s.takeWhile isDigit
  let r := s.dropWhile isDigit
  match r with
  | [] => if ip.isEmpty then none else some (mkRat (natOfDigits ip) 1)
  | c :: fr =>
    if isDotCh c then
      let fd := fr.takeWhile isDigit
      if ip.isEmpty && fd.isEmpty then none
      else some (mkRat (natOfDigits ip * 10 ^ fd.length + natOfDigits fd) (10 ^ fd.length))
    else if ip.isEmpty then none else some (mkRat (natOfDigits ip) 1)

/-- The amount candidate loop of the source.  The accumulator models the
mutable amount variable (initially zero; none models NaN): each matching
pattern overwrites it, and the loop stops early exactly when the parsed value
is a number strictly greater than zero. -/
def amountLoop : List RE → Option ℚ → List Char → Option ℚ
  | [], acc, _ => acc
  | re :: res, acc, cleanMessage =>
    match execSearch re cleanMessage with
    | none => amountLoop res acc cleanMessage
    | some caps =>
      match parseAmt (stripCommas ((capGet caps 1).getD [])) with
      | some v => if 0 < v then some v else amountLoop res (some v) cleanMessage
      | none => amountLoop res none cleanMessage

/-- The balance candidate loop of the source: the first match that parses to a
number (zero included) wins; a match parsing to NaN overwrites the accumulator
and the loop continues. -/
def balanceLoop : List RE → Option ℚ → List Char → Option ℚ
  | [], acc, _ => acc
  | re :: res, acc, cleanMessage =>
    match execSearch re cleanMessage with
    | none => balanceLoop res acc cleanMessage
    | some caps =>
      match parseAmt (stripCommas ((capGet caps 1).getD [])) with
      | some v => some v
      | none => balanceLoop res none cleanMessage

/-- First-match extraction of a capture group, used for the account and
reference tables of the source: the first matching pattern stops the loop and
its first capture group is the value. -/
def firstCap : List RE → List Char → Option (List Char)
  | [], _ => none
  | re :: res, cleanMessage =>
    match execSearch re cleanMessage with
    | some caps => capGet caps 1
    | none => firstCap res cleanMessage

/-- The timestamp value the source builds from a timestamp match: the first
capture group when it is non-empty (always the case on a successful match),
otherwise the first and second groups joined by a space (dead code kept for
faithfulness to the source expression). -/
def tsJoin (caps : List (Nat × List Char)) : List Char :=
  let g1 := (capGet caps 1).getD []
  if g1.isEmpty then g1 ++ (' ' :: ((capGet caps 2).getD [])) else g1

/-- The timestamp candidate loop of the source: the first matching pattern
wins. -/
def tsLoop : List RE → List Char → Option (List Char)
  | [], _ => none
  | re :: res, cleanMessage =>
    match execSearch re cleanMessage with
    | some caps => some (tsJoin caps)
    | none => tsLoop res cleanMessage

/-- Description resolution of the source, in its if-else order: the merchant
clause, the ATM clause, the inward-credit clause, the online-transfer clause,
the service-charge clause, the reversal clause, then the kind-based
default. -/
def resolveDescription (ty : TxType) (cleanMessage : List Char) : List Char :=
  match execSearch merchantRe cleanMessage with
  | some caps => trimWS ((capGet caps 1).getD [])
  | none =>
    if (execSearch atmRe cleanMessage).isSome then "ATM Withdrawal".toList
    else if (execSearch beftnRe cleanMessage).isSome then "Bank Transfer (Received)".toList
    else if (execSearch onlineRe cleanMessage).isSome then "Online Transfer".toList
    else if (execSearch npsbRe cleanMessage).isSome then "Bank Service Charge".toList
    else if (execSearch reversedRe cleanMessage).isSome then "Transaction Reversal".toList
    else if ty = TxType.debit then "Bank Debit".toList else "Bank Credit".toList

/-- The output record of parseBankSMS.  The amount and balance fields model
JavaScript numbers: none stands for NaN, some q for the number q. -/
structure SMSTransaction where
  type : TxType
  amount : Option ℚ
  balance : Option ℚ
  timestamp : List Char
  accountNumber : Option (List Char)
  description : List Char
  transactionId : Option (List Char)
deriving DecidableEq, Repr

/-- The extractor of the source.  The extraction-time wall-clock string (the
timestamp fallback) is passed in as the parameter now; everything else is a
pure function of the message.  The source wraps the body in a try-catch that
converts any exception into null; the embedding is total, so that branch has
no counterpart. -/
def parseBankSMS (now message : List Char) : Option SMSTransaction :=
  let cleanMessage := normalizeSMS message
  match detectType cleanMessage with
  | none => none
  | some ty =>
    let amount := amountLoop amountREs (some 0) cleanMessage
    if amount = some 0 then none
    else
      some { type := ty
             amount := amount
             balance := balanceLoop balanceREs (some 0) cleanMessage
             timestamp := (tsLoop tsREs cleanMessage).getD now
             accountNumber := firstCap accountREs cleanMessage
             description := resolveDescription ty cleanMessage
             transactionId := firstCap refREs cleanMessage }

/-! The categorizer of the source and spec-side comparison definitions. -/

/-- Lowercasing of a whole string, as performed by description.toLowerCase(). -/
def lowerList (s : List Char) : List Char := s.map lowerCh

/-- Case-sensitive prefix test on character lists. -/
def isPrefixList : List Char → List Char → Bool
  | [], _ => true
  | _ :: _, [] => false
  | a :: w, c :: s => a = c && isPrefixList w s

/-- Case-sensitive substring test: models String.prototype.includes, and also
the keyword regular expressions of the categorizer, which are alternations of
lowercase literals applied to the lowercased description. -/
def containsSub : List Char → List Char → Bool
  | hay, needle =>
    match hay with
    | [] => needle.isEmpty
    | _ :: t => isPrefixList needle hay || containsSub t needle

/-- The numeric fallback guard of the source: amount && amount > 10000, where
a missing amount and the number zero are both falsy. -/
def largeAmt : Option ℚ → Bool
  | none => false
  | some v => decide (¬ v = 0) && decide (10000 < v)

/-- The categorizer of the source: an if-else chain of keyword tests on the
lowercased description, then the numeric fallback, then Other.  Total by
construction, mirroring the source clause for clause. -/
def categorizeTransaction (description : List Char) (amount : Option ℚ) : List Char :=
  let desc := lowerList description
  if containsSub desc ("atm withdrawal".toList) || containsSub desc ("withdrawn".toList) ||
     containsSub desc ("atm".toList) then "ATM Withdrawal".toList
  else if containsSub desc ("beftn".toList) || containsSub desc ("transfer".toList) ||
     containsSub desc ("inward credit".toList) then "Bank Transfer".toList
  else if containsSub desc ("charge".toList) || containsSub desc ("fee".toList) ||
     containsSub desc ("npsb charge".toList) then "Bank Fees".toList
  else if containsSub desc ("reversal".toList) || containsSub desc ("reversed".toList) then
    "Refund".toList
  else if containsSub desc ("jeweller".toList) || containsSub desc ("jewelry".toList) ||
     containsSub desc ("gold".toList) then "Shopping".toList
  else if containsSub desc ("pharma".toList) || containsSub desc ("pharmacy".toList) ||
     containsSub desc ("medicine".toList) || containsSub desc ("medical".toList) then
    "Health".toList
  else if containsSub desc ("restaurant".toList) || containsSub desc ("cafe".toList) ||
     containsSub desc ("food".toList) || containsSub desc ("pizza".toList) ||
     containsSub desc ("burger".toList) || containsSub desc ("kfc".toList) ||
     containsSub desc ("domino".toList) || containsSub desc ("starbucks".toList) ||
     containsSub desc ("coffee".toList) || containsSub desc ("dining".toList) then
    "Food".toList
  else if containsSub desc ("uber".toList) || containsSub desc ("pathao".toList) ||
     containsSub desc ("taxi".toList) || containsSub desc ("transport".toList) ||
     containsSub desc ("fuel".toList) || containsSub desc ("petrol".toList) ||
     containsSub desc ("gas".toList) then "Transport".toList
  else if containsSub desc ("shop".toList) || containsSub desc ("store".toList) ||
     containsSub desc ("market".toList) || containsSub desc ("mall".toList) ||
     containsSub desc ("purchase".toList) || containsSub desc ("retail".toList) ||
     containsSub desc ("bazar".toList) || containsSub desc ("daraz".toList) then
    "Shopping".toList
  else if containsSub desc ("bill".toList) || containsSub desc ("utility".toList) ||
     containsSub desc ("electric".toList) || containsSub desc ("internet".toList) ||
     containsSub desc ("phone".toList) || containsSub desc ("mobile".toList) ||
     containsSub desc ("recharge".toList) then "Bills".toList
  else if containsSub desc ("salary".toList) || containsSub desc ("income".toList) ||
     containsSub desc ("payment".toList) || containsSub desc ("bonus".toList) ||
     containsSub desc ("allowance".toList) then "Income".toList
  else if containsSub desc ("entertainment".toList) || containsSub desc ("movie".toList) ||
     containsSub desc ("game".toList) || containsSub desc ("fun".toList) ||
     containsSub desc ("ticket".toList) then "Entertainment".toList
  else if containsSub desc ("education".toList) || containsSub desc ("school".toList) ||
     containsSub desc ("college".toList) || containsSub desc ("course".toList) ||
     containsSub desc ("book".toList) then "Education".toList
  else if largeAmt amount then "Large Payment".toList
  else "Other".toList

/-- One keyword rule of the specification's categorizer table. -/
structure CatRule where
  kws : List (List Char)
  label : List Char
deriving DecidableEq, Repr

/-- Modelled from the spec: the ordered keyword rule table of section 4.3,
rules 1 through 13, with the rules' keyword sets and labels as written
there. -/
def specRules : List CatRule :=
  [⟨[("atm withdrawal".toList), ("withdrawn".toList), ("atm".toList)], ("ATM Withdrawal".toList)⟩,
   ⟨[("beftn".toList), ("transfer".toList), ("inward credit".toList)], ("Bank Transfer".toList)⟩,
   ⟨[("charge".toList), ("fee".toList), ("npsb charge".toList)], ("Bank Fees".toList)⟩,
   ⟨[("reversal".toList), ("reversed".toList)], ("Refund".toList)⟩,
   ⟨[("jeweller".toList), ("jewelry".toList), ("gold".toList)], ("Shopping".toList)⟩,
   ⟨[("pharma".toList), ("pharmacy".toList), ("medicine".toList), ("medical".toList)],
     ("Health".toList)⟩,
   ⟨[("restaurant".toList), ("cafe".toList), ("food".toList), ("pizza".toList),
     ("burger".toList), ("kfc".toList), ("domino".toList), ("starbucks".toList),
     ("coffee".toList), ("dining".toList)], ("Food".toList)⟩,
   ⟨[("uber".toList), ("pathao".toList), ("taxi".toList), ("transport".toList),
     ("fuel".toList), ("petrol".toList), ("gas".toList)], ("Transport".toList)⟩,
   ⟨[("shop".toList), ("store".toList), ("market".toList), ("mall".toList),
     ("purchase".toList), ("retail".toList), ("bazar".toList), ("daraz".toList)],
     ("Shopping".toList)⟩,
   ⟨[("bill".toList), ("utility".toList), ("electric".toList), ("internet".toList),
     ("phone".toList), ("mobile".toList), ("recharge".toList)], ("Bills".toList)⟩,
   ⟨[("salary".toList), ("income".toList), ("payment".toList), ("bonus".toList),
     ("allowance".toList)], ("Income".toList)⟩,
   ⟨[("entertainment".toList), ("movie".toList), ("game".toList), ("fun".toList),
     ("ticket".toList)], ("Entertainment".toList)⟩,
   ⟨[("education".toList), ("school".toList), ("college".toList), ("course".toList),
     ("book".toList)], ("Education".toList)⟩]

/-- Case-insensitive keyword-set hit, as the specification describes the
matching of one rule. -/
def kwHit (d : List Char) (r : CatRule) : Bool :=
  r.kws.any (fun k => containsSub (lowerList d) k)

/-- Modelled from the spec: the categorizer contract of section 4.3 as a
first-matching-rule lookup in the ordered table, with the Large Payment
fallback for a supplied amount exceeding 10000, else Other. -/
def categorizeSpec (d : List Char) (a : Option ℚ) : List Char :=
  match specRules.find? (fun r => kwHit d r) with
  | some r => r.label
  | none =>
    match a with
    | some v => if 10000 < v then "Large Payment".toList else "Other".toList
    | none => "Other".toList

/-- The closed label set of the specification's data model. -/
def categoryLabels : List (List Char) :=
  [("ATM Withdrawal".toList), ("Bank Transfer".toList), ("Bank Fees".toList),
   ("Refund".toList), ("Shopping".toList), ("Health".toList), ("Food".toList),
   ("Transport".toList), ("Bills".toList), ("Income".toList), ("Entertainment".toList),
   ("Education".toList), ("Large Payment".toList), ("Other".toList)]

/-- Case-insensitive prefix test, the specification-side matching notion. -/
def isPrefixCI : List Char → List Char → Bool
  | [], _ => true
  | _ :: _, [] => false
  | a :: w, c :: s => lowerCh a = lowerCh c && isPrefixCI w s

/-- Case-insensitive substring containment, the specification-side reading of
a vocabulary word being present in a message. -/
def containsCI (w : List Char) : List Char → Bool
  | [] => w.isEmpty
  | c :: t => isPrefixCI w (c :: t) || containsCI w t

/-- A message contains some word of a vocabulary, case-insensitively. -/
def containsAnyCI (ws : List (List Char)) (hay : List Char) : Bool :=
  ws.any (fun w => containsCI w hay)

/-! Lemmas about the matcher: the reported (head) match and its search. -/

/-- The match the engine reports at a fixed position. -/
def FirstM (re : RE) (s : List Char) (m : MRes) : Prop :=
  (mres re s).head? = some m

theorem head?_eq_some_iff {α : Type} {l : List α} {x : α} :
    l.head? = some x ↔ ∃ t, l = x :: t := by
  cases l <;> simp

theorem firstM_eps (s : List Char) : FirstM .eps s ⟨[], s, []⟩ := rfl

theorem firstM_lit {w s : List Char} {q : List Char × List Char}
    (h : stripPrefixCI w s = some q) : FirstM (.lit w) s ⟨q.1, q.2, []⟩ := by
  simp [FirstM, mres, h]

theorem firstM_cls {p : Char → Bool} {c : Char} {r : List Char} (h : p c = true) :
    FirstM (.cls p) (c :: r) ⟨[c], r, []⟩ := by
  simp [FirstM, mres, h]

theorem firstM_seq {a b : RE} {s : List Char} {m1 m2 : MRes}
    (h1 : FirstM a s m1) (h2 : FirstM b m1.rest m2) :
    FirstM (.seq a b) s ⟨m1.pre ++ m2.pre, m2.rest, m1.caps ++ m2.caps⟩ := by
  obtain ⟨t1, ht1⟩ := head?_eq_some_iff.mp h1
  obtain ⟨t2, ht2⟩ := head?_eq_some_iff.mp h2
  simp [FirstM, mres, ht1, ht2]

theorem firstM_alt_left {a b : RE} {s : List Char} {m : MRes}
    (h : FirstM a s m) : FirstM (.alt a b) s m := by
  obtain ⟨t, ht⟩ := head?_eq_some_iff.mp h
  simp [FirstM, mres, ht]

theorem firstM_alt_right {a b : RE} {s : List Char} {m : MRes}
    (h0 : mres a s = []) (h : FirstM b s m) : FirstM (.alt a b) s m := by
  simpa [FirstM, mres, h0] using h

theorem firstM_grp {r : RE} {n : Nat} {s : List Char} {m : MRes}
    (h : FirstM r s m) : FirstM (.grp n r) s ⟨m.pre, m.rest, m.caps ++ [(n, m.pre)]⟩ := by
  obtain ⟨t, ht⟩ := head?_eq_some_iff.mp h
  simp [FirstM, mres, ht]

theorem starSplits_head_none {p : Char → Bool} {lz : Bool} {s : List Char}
    (h : ∀ c ∈ s.head?, p c = false) : starSplits p lz s = [([], s)] := by
  cases s with
  | nil => rfl
  | cons c t =>
    have hc : p c = false := h c (by simp)
    simp [starSplits, hc]

theorem starSplits_head_greedy {p : Char → Bool} {xs ys : List Char}
    (hxs : ∀ c ∈ xs, p c = true) (hys : ∀ c ∈ ys.head?, p c = false) :
    (starSplits p false (xs ++ ys)).head? = some (xs, ys) := by
  induction xs with
  | nil => simp [starSplits_head_none hys]
  | cons x xs ih =>
    have hx : p x = true := hxs x (by simp)
    have ih2 := ih (fun c hc => hxs c (by simp [hc]))
    show (starSplits p false (x :: (xs ++ ys))).head? = _
    simp only [starSplits, hx, if_true, Bool.false_eq_true, if_false, List.head?_append,
      List.head?_map, ih2, Option.map_some]
    rfl

theorem firstM_star_none {p : Char → Bool} {lz : Bool} {s : List Char}
    (h : ∀ c ∈ s.head?, p c = false) : FirstM (.star p lz) s ⟨[], s, []⟩ := by
  simp [FirstM, mres, starSplits_head_none h]

theorem firstM_star_greedy {p : Char → Bool} {xs ys : List Char}
    (hxs : ∀ c ∈ xs, p c = true) (hys : ∀ c ∈ ys.head?, p c = false) :
    FirstM (.star p false) (xs ++ ys) ⟨xs, ys, []⟩ := by
  simp [FirstM, mres, List.head?_map, starSplits_head_greedy hxs hys]

theorem execAt_of_firstM {re : RE} {s : List Char} {m : MRes}
    (h : FirstM re s m) : execAt re s = some m.caps := by
  unfold FirstM at h
  unfold execAt
  rw [h]
  rfl

theorem stripPrefixCI_isSome (w : List Char) : ∀ s, (stripPrefixCI w s).isSome = isPrefixCI w s := by
  induction w with
  | nil => intro s; simp [stripPrefixCI, isPrefixCI]
  | cons a w ih =>
    intro s
    cases s with
    | nil => simp [stripPrefixCI, isPrefixCI]
    | cons c t =>
      by_cases h : lowerCh a = lowerCh c
      · simp [stripPrefixCI, isPrefixCI, h, ih t]
      · simp [stripPrefixCI, isPrefixCI, h]

theorem mres_lit_eq_nil {w s : List Char} (h : isPrefixCI w s = false) :
    mres (.lit w) s = [] := by
  have h2 := stripPrefixCI_isSome w s
  rw [h] at h2
  cases hs : stripPrefixCI w s with
  | none => simp [mres, hs]
  | some q => rw [hs] at h2; simp at h2

theorem mres_seq_of_left_nil {a b : RE} {s : List Char} (h : mres a s = []) :
    mres (.seq a b) s = [] := by
  show (mres a s).flatMap _ = []
  rw [h]
  rfl

theorem execAt_seq_lit_none {w : List Char} {r : RE} {s : List Char}
    (h : isPrefixCI w s = false) : execAt (.seq (.lit w) r) s = none := by
  unfold execAt
  rw [mres_seq_of_left_nil (mres_lit_eq_nil h)]
  rfl

theorem execSearch_cons_pos {re : RE} {c : Char} {t : List Char}
    {caps : List (Nat × List Char)} (h : execAt re (c :: t) = some caps) :
    execSearch re (c :: t) = some caps := by
  simp [execSearch, h]

theorem execSearch_cons_neg {re : RE} {c : Char} {t : List Char}
    (h : execAt re (c :: t) = none) : execSearch re (c :: t) = execSearch re t := by
  simp [execSearch, h]

theorem execSearch_of_execAt_some {re : RE} {s : List Char}
    {caps : List (Nat × List Char)} (h : execAt re s = some caps) :
    execSearch re s = some caps := by
  cases s with
  | nil => simpa [execSearch] using h
  | cons c t => exact execSearch_cons_pos h

theorem execSearch_isSome_of_execAt {re : RE} {s : List Char}
    (h : (execAt re s).isSome = true) : (execSearch re s).isSome = true := by
  cases hs : execAt re s with
  | none => rw [hs] at h; simp at h
  | some caps => rw [execSearch_of_execAt_some hs]; rfl

theorem execSearch_append_isSome {re : RE} {s : List Char}
    (h : (execSearch re s).isSome = true) :
    ∀ p : List Char, (execSearch re (p ++ s)).isSome = true := by
  intro p
  induction p with
  | nil => simpa using h
  | cons c p ih =>
    show (execSearch re (c :: (p ++ s))).isSome = true
    cases ha : execAt re (c :: (p ++ s)) with
    | some caps => rw [execSearch_cons_pos ha]; rfl
    | none => rw [execSearch_cons_neg ha]; exact ih

theorem execSearch_skip {re : RE} {s0 : List Char} :
    ∀ p : List Char,
      (∀ t, t <:+ (p ++ s0) → s0.length < t.length → execAt re t = none) →
      execSearch re (p ++ s0) = execSearch re s0 := by
  intro p
  induction p with
  | nil => intro _; rfl
  | cons c p ih =>
    intro h
    have hnone : execAt re (c :: (p ++ s0)) = none := by
      apply h (c :: (p ++ s0)) (List.suffix_refl _)
      simp
      omega
    rw [show ((c :: p) ++ s0 : List Char) = c :: (p ++ s0) from rfl,
        execSearch_cons_neg hnone]
    exact ih (fun t ht hl => h t (ht.trans (List.suffix_cons c (p ++ s0))) hl)

theorem suffix_eq_drop {α : Type} {t l : List α} (h : t <:+ l) :
    t = l.drop (l.length - t.length) := by
  obtain ⟨p, hp⟩ := h
  subst hp
  simp [List.drop_left]

/-! Bridge between the vocabulary regular expressions and case-insensitive
substring containment. -/

theorem list_any_orB {α : Type} (l : List α) (f g : α → Bool) :
    (l.any fun x => f x || g x) = (l.any f || l.any g) := by
  induction l with
  | nil => rfl
  | cons a l ih =>
    simp only [List.any_cons, ih]
    cases f a <;> cases g a <;> simp

theorem execAt_lit_isSome (w s : List Char) :
    (execAt (.lit w) s).isSome = isPrefixCI w s := by
  rw [← stripPrefixCI_isSome]
  cases hs : stripPrefixCI w s <;> simp [execAt, mres, hs]

theorem execAt_cls_false (s : List Char) :
    execAt (.cls fun _ => false) s = none := by
  cases s <;> simp [execAt, mres]

theorem execAt_alt_isSome (a b : RE) (s : List Char) :
    (execAt (.alt a b) s).isSome = ((execAt a s).isSome || (execAt b s).isSome) := by
  simp only [execAt, mres, List.head?_append]
  cases (mres a s).head? <;> cases (mres b s).head? <;> simp [Option.or]

theorem execAt_altLits (ws : List (List Char)) :
    ∀ s, (execAt (altLits ws) s).isSome = ws.any (fun w => isPrefixCI w s) := by
  induction ws with
  | nil => intro s; simp [altLits, execAt_cls_false]
  | cons w ws ih =>
    intro s
    cases ws with
    | nil => simp [altLits, execAt_lit_isSome]
    | cons w2 ws2 =>
      show (execAt (.alt (.lit w) (altLits (w2 :: ws2))) s).isSome = _
      rw [execAt_alt_isSome, execAt_lit_isSome, ih]
      simp [List.any_cons]

theorem isPrefixCI_nil_eq (w : List Char) : isPrefixCI w [] = w.isEmpty := by
  cases w <;> rfl

theorem containsAnyCI_cons (ws : List (List Char)) (c : Char) (t : List Char) :
    containsAnyCI ws (c :: t) =
      (ws.any (fun w => isPrefixCI w (c :: t)) || containsAnyCI ws t) := by
  unfold containsAnyCI
  rw [← list_any_orB]
  rfl

theorem execSearch_altLits (ws : List (List Char)) :
    ∀ s, (execSearch (altLits ws) s).isSome = containsAnyCI ws s := by
  intro s
  induction s with
  | nil =>
    show (execAt (altLits ws) []).isSome = _
    rw [execAt_altLits]
    unfold containsAnyCI
    have hfn : (fun w : List Char => isPrefixCI w []) = (fun w => containsCI w []) := by
      funext w
      cases w <;> rfl
    rw [hfn]
  | cons c t ih =>
    cases ha : execAt (altLits ws) (c :: t) with
    | some caps =>
      rw [execSearch_cons_pos ha, containsAnyCI_cons]
      have h2 : ws.any (fun w => isPrefixCI w (c :: t)) = true := by
        rw [← execAt_altLits, ha]
        rfl
      rw [h2]
      simp
    | none =>
      rw [execSearch_cons_neg ha, ih, containsAnyCI_cons]
      have h2 : ws.any (fun w => isPrefixCI w (c :: t)) = false := by
        rw [← execAt_altLits, ha]
        rfl
      rw [h2]
      simp

theorem largeAmt_some (v : ℚ) : largeAmt (some v) = decide (10000 < v) := by
  by_cases hv : (10000 : ℚ) < v
  · have hne : ¬ v = 0 := by
      intro h0
      rw [h0] at hv
      norm_num at hv
    simp [largeAmt, hv, hne]
  · simp [largeAmt, hv]

theorem categorize_eq_table (d : List Char) (a : Option ℚ) :
    categorizeTransaction d a = categorizeSpec d a := by
  unfold categorizeTransaction categorizeSpec specRules kwHit
  simp only [List.find?, List.any_cons, List.any_nil, Bool.or_false, Bool.or_assoc]
  cases h1 : containsSub (lowerList d) ("atm withdrawal".toList) ||
      (containsSub (lowerList d) ("withdrawn".toList) || containsSub (lowerList d) ("atm".toList))
  case true => rfl
  cases h2 : containsSub (lowerList d) ("beftn".toList) ||
      (containsSub (lowerList d) ("transfer".toList) ||
        containsSub (lowerList d) ("inward credit".toList))
  case true => rfl
  cases h3 : containsSub (lowerList d) ("charge".toList) ||
      (containsSub (lowerList d) ("fee".toList) || containsSub (lowerList d) ("npsb charge".toList))
  case true => rfl
  cases h4 : containsSub (lowerList d) ("reversal".toList) ||
      containsSub (lowerList d) ("reversed".toList)
  case true => rfl
  cases h5 : containsSub (lowerList d) ("jeweller".toList) ||
      (containsSub (lowerList d) ("jewelry".toList) || containsSub (lowerList d) ("gold".toList))
  case true => rfl
  cases h6 : containsSub (lowerList d) ("pharma".toList) ||
      (containsSub (lowerList d) ("pharmacy".toList) ||
        (containsSub (lowerList d) ("medicine".toList) ||
          containsSub (lowerList d) ("medical".toList)))
  case true => rfl
  cases h7 : containsSub (lowerList d) ("restaurant".toList) ||
      (containsSub (lowerList d) ("cafe".toList) ||
        (containsSub (lowerList d) ("food".toList) ||
          (containsSub (lowerList d) ("pizza".toList) ||
            (containsSub (lowerList d) ("burger".toList) ||
              (containsSub (lowerList d) ("kfc".toList) ||
                (containsSub (lowerList d) ("domino".toList) ||
                  (containsSub (lowerList d) ("starbucks".toList) ||
                    (containsSub (lowerList d) ("coffee".toList) ||
                      containsSub (lowerList d) ("dining".toList)))))))))
  case true => rfl
  cases h8 : containsSub (lowerList d) ("uber".toList) ||
      (containsSub (lowerList d) ("pathao".toList) ||
        (containsSub (lowerList d) ("taxi".toList) ||
          (containsSub (lowerList d) ("transport".toList) ||
            (containsSub (lowerList d) ("fuel".toList) ||
              (containsSub (lowerList d) ("petrol".toList) ||
                containsSub (lowerList d) ("gas".toList))))))
  case true => rfl
  cases h9 : containsSub (lowerList d) ("shop".toList) ||
      (containsSub (lowerList d) ("store".toList) ||
        (containsSub (lowerList d) ("market".toList) ||
          (containsSub (lowerList d) ("mall".toList) ||
            (containsSub (lowerList d) ("purchase".toList) ||
              (containsSub (lowerList d) ("retail".toList) ||
                (containsSub (lowerList d) ("bazar".toList) ||
                  containsSub (lowerList d) ("daraz".toList)))))))
  case true => rfl
  cases h10 : containsSub (lowerList d) ("bill".toList) ||
      (containsSub (lowerList d) ("utility".toList) ||
        (containsSub (lowerList d) ("electric".toList) ||
          (containsSub (lowerList d) ("internet".toList) ||
            (containsSub (lowerList d) ("phone".toList) ||
              (containsSub (lowerList d) ("mobile".toList) ||
                containsSub (lowerList d) ("recharge".toList))))))
  case true => rfl
  cases h11 : containsSub (lowerList d) ("salary".toList) ||
      (containsSub (lowerList d) ("income".toList) ||
        (containsSub (lowerList d) ("payment".toList) ||
          (containsSub (lowerList d) ("bonus".toList) ||
            containsSub (lowerList d) ("allowance".toList))))
  case true => rfl
  cases h12 : containsSub (lowerList d) ("entertainment".toList) ||
      (containsSub (lowerList d) ("movie".toList) ||
        (containsSub (lowerList d) ("game".toList) ||
          (containsSub (lowerList d) ("fun".toList) ||
            containsSub (lowerList d) ("ticket".toList))))
  case true => rfl
  cases h13 : containsSub (lowerList d) ("education".toList) ||
      (containsSub (lowerList d) ("school".toList) ||
        (containsSub (lowerList d) ("college".toList) ||
          (containsSub (lowerList d) ("course".toList) ||
            containsSub (lowerList d) ("book".toList))))
  case true => rfl
  cases a with
  | none => rfl
  | some v =>
    show (if largeAmt (some v) = true then _ else _) = _
    rw [largeAmt_some]
    by_cases hv : (10000 : ℚ) < v <;> simp [hv]

/-! Shape lemmas for the extractor. -/

theorem parseBankSMS_none_noType (now message : List Char)
    (hty : detectType (normalizeSMS message) = none) :
    parseBankSMS now message = none := by
  simp only [parseBankSMS, hty]

theorem parseBankSMS_none_zeroAmount (now message : List Char) (ty : TxType)
    (hty : detectType (normalizeSMS message) = some ty)
    (ha : amountLoop amountREs (some 0) (normalizeSMS message) = some 0) :
    parseBankSMS now message = none := by
  simp only [parseBankSMS, hty, ha, if_pos]

theorem parseBankSMS_some_form (now message : List Char) (ty : TxType)
    (hty : detectType (normalizeSMS message) = some ty)
    (ha : ¬ amountLoop amountREs (some 0) (normalizeSMS message) = some 0) :
    parseBankSMS now message =
      some { type := ty
             amount := amountLoop amountREs (some 0) (normalizeSMS message)
             balance := balanceLoop balanceREs (some 0) (normalizeSMS message)
             timestamp := (tsLoop tsREs (normalizeSMS message)).getD now
             accountNumber := firstCap accountREs (normalizeSMS message)
             description := resolveDescription ty (normalizeSMS message)
             transactionId := firstCap refREs (normalizeSMS message) } := by
  simp only [parseBankSMS, hty, if_neg ha]

/-! Claim theorems. -/

/-- C1: the claim states that the extractor returns the empty result exactly
when the kind cannot be resolved or no amount candidate parses to a strictly
positive number.  The code violates the right-to-left direction: on the
message below the kind resolves to debit and the only matching amount capture
is a lone comma, which parses to NaN (modelled as none), yet the final guard
only tests for the number zero, so a complete record with a NaN amount is
returned instead of the empty result. -/
theorem c1_nan_amount_escapes (now : List Char) :
    parseBankSMS now (("debited BDT ,").toList) =
      some { type := TxType.debit, amount := none, balance := some 0,
             timestamp := now, accountNumber := none,
             description := ("Bank Debit").toList, transactionId := none } := rfl

/-- C7: the claim states that when the third timestamp pattern wins, the
timestamp is the captured date and time combined into one string.  The code
assigns the first capture group alone (the short-circuit in its fallback
expression never reaches the combining branch), so the timestamp is only the
date: on the message below the third pattern wins with date 01/02/03 and time
04:05, and the resulting timestamp is the date alone. -/
theorem c7_timestamp_date_only (now : List Char) :
    parseBankSMS now (("debited BDT 5 on 01/02/03 04:05").toList) =
      some { type := TxType.debit, amount := some (mkRat 5 1), balance := some 0,
             timestamp := ("01/02/03").toList, accountNumber := none,
             description := ("Bank Debit").toList, transactionId := none } := rfl

/-- C8: the first end-to-end scenario of the specification: the UCB debit
message yields kind debit, amount 3060.00, balance 304017.61, account
reference 3766, timestamp 07:58 PM, reference identifier 16419, description
Bank Debit, and the categorizer maps Bank Debit to Other. -/
theorem c8_scenario1 (now : List Char) :
    parseBankSMS now
        (("Your A/C (***3766) has been debited BDT 3,060.00. Avl Bal: BDT 3,04,017.61 @ 07:58 PM. For query: 16419").toList) =
      some { type := TxType.debit, amount := some (mkRat 306000 100),
             balance := some (mkRat 30401761 100), timestamp := ("07:58 PM").toList,
             accountNumber := some (("3766").toList), description := ("Bank Debit").toList,
             transactionId := some (("16419").toList) } ∧
    mkRat 306000 100 = (3060 : ℚ) ∧
    mkRat 30401761 100 = (30401761 : ℚ) / 100 ∧
    categorizeTransaction (("Bank Debit").toList) none = ("Other").toList :=
  ⟨rfl, by rw [Rat.mkRat_eq_div]; norm_num, by rw [Rat.mkRat_eq_div]; norm_num, rfl⟩

/-- C3: kind resolution checks the credit vocabulary before the debit
vocabulary, case-insensitively: any message containing a credit-vocabulary
word resolves to credit even when a debit word is present, and any message
containing a debit-vocabulary word and no credit-vocabulary word resolves to
debit. -/
theorem c3_kind_priority (message : List Char) :
    (containsAnyCI creditWords (normalizeSMS message) = true →
      detectType (normalizeSMS message) = some TxType.credit) ∧
    (containsAnyCI creditWords (normalizeSMS message) = false →
      containsAnyCI debitWords (normalizeSMS message) = true →
      detectType (normalizeSMS message) = some TxType.debit) := by
  constructor
  · intro h
    have hc : (execSearch creditRe (normalizeSMS message)).isSome = true := by
      rw [show creditRe = altLits creditWords from rfl, execSearch_altLits]
      exact h
    simp [detectType, hc]
  · intro hcf hd
    have hc : (execSearch creditRe (normalizeSMS message)).isSome = false := by
      rw [show creditRe = altLits creditWords from rfl, execSearch_altLits]
      exact hcf
    have hd2 : (execSearch debitRe (normalizeSMS message)).isSome = true := by
      rw [show debitRe = altLits debitWords from rfl, execSearch_altLits]
      exact hd
    simp [detectType, hc, hd2]

/-- Witness for C3 at concrete messages: a message with both vocabularies is
classified credit, and a debit-only message is classified debit. -/
theorem c3_kind_priority_witness :
    detectType (normalizeSMS (("Deposit and debited BDT 5").toList)) = some TxType.credit ∧
    detectType (normalizeSMS (("debited BDT 5").toList)) = some TxType.debit :=
  ⟨(c3_kind_priority _).1 (by decide), (c3_kind_priority _).2 (by decide) (by decide)⟩

/-- C4: the categorizer is total: every description and every optional amount
yield a label from the fixed closed set, and an unrecognized description (no
keyword rule hits) whose amount is absent or at most 10000 yields Other. -/
theorem c4_categorizer_total (d : List Char) (a : Option ℚ) :
    categorizeTransaction d a ∈ categoryLabels ∧
    ((specRules.all fun r => !(kwHit d r)) = true →
      (∀ v : ℚ, a = some v → v ≤ 10000) →
      categorizeTransaction d a = ("Other").toList) := by
  constructor
  · rw [categorize_eq_table]
    unfold categorizeSpec
    cases hf : specRules.find? (fun r => kwHit d r) with
    | some r =>
      have hm : r ∈ specRules := List.mem_of_find?_eq_some hf
      have hall : ∀ x ∈ specRules, x.label ∈ categoryLabels := by decide
      exact hall r hm
    | none =>
      cases a with
      | none => decide
      | some v =>
        by_cases hv : (10000 : ℚ) < v
        · simp only [if_pos hv]
          decide
        · simp only [if_neg hv]
          decide
  · intro hall hamt
    rw [categorize_eq_table]
    unfold categorizeSpec
    have hf : specRules.find? (fun r => kwHit d r) = none := by
      rw [List.find?_eq_none]
      intro x hx
      have hx2 := List.all_eq_true.mp hall x hx
      simp only [Bool.not_eq_eq_eq_not, Bool.not_true] at hx2
      simp [hx2]
    rw [hf]
    cases a with
    | none => rfl
    | some v =>
      have hv : ¬ (10000 : ℚ) < v := not_lt.mpr (hamt v rfl)
      simp [hv]

/-- Witness for C4 at a concrete unrecognized description and small amount. -/
theorem c4_categorizer_total_witness :
    categorizeTransaction (("zzz").toList) (some 5) ∈ categoryLabels ∧
    categorizeTransaction (("zzz").toList) (some 5) = ("Other").toList :=
  ⟨(c4_categorizer_total (("zzz").toList) (some 5)).1,
   (c4_categorizer_total (("zzz").toList) (some 5)).2 (by decide)
     (fun v hv => by
       have h5 : (5 : ℚ) = v := Option.some.inj hv
       rw [← h5]
       norm_num)⟩

/-- C5: the categorizer selects its label by the first matching rule of the
fixed ordered table of section 4.3, and Large Payment arises only when no
keyword rule matched and a supplied amount exceeds 10000: the source if-else
chain computes exactly the first-matching-rule lookup in the
specification's table. -/
theorem c5_first_rule_priority (d : List Char) (a : Option ℚ) :
    categorizeTransaction d a = categorizeSpec d a :=
  categorize_eq_table d a

/-- C9: the extractor is deterministic up to the timestamp fallback: two runs
(modelled as two wall-clock parameters) agree on presence of a result and on
every field except the timestamp, and whenever some timestamp pattern matches
the message the two runs are fully identical. -/
theorem c9_deterministic (message n1 n2 : List Char) :
    ((parseBankSMS n1 message).isSome = (parseBankSMS n2 message).isSome) ∧
    (∀ r1 r2, parseBankSMS n1 message = some r1 → parseBankSMS n2 message = some r2 →
      r1.type = r2.type ∧ r1.amount = r2.amount ∧ r1.balance = r2.balance ∧
      r1.accountNumber = r2.accountNumber ∧ r1.description = r2.description ∧
      r1.transactionId = r2.transactionId) ∧
    ((tsLoop tsREs (normalizeSMS message)).isSome = true →
      parseBankSMS n1 message = parseBankSMS n2 message) := by
  cases hty : detectType (normalizeSMS message) with
  | none =>
    rw [parseBankSMS_none_noType n1 message hty, parseBankSMS_none_noType n2 message hty]
    refine ⟨rfl, ?_, ?_⟩
    · intro r1 r2 h1 h2
      cases h1
    · intro h
      rfl
  | some ty =>
    by_cases ha : amountLoop amountREs (some 0) (normalizeSMS message) = some 0
    · rw [parseBankSMS_none_zeroAmount n1 message ty hty ha,
          parseBankSMS_none_zeroAmount n2 message ty hty ha]
      refine ⟨rfl, ?_, ?_⟩
      · intro r1 r2 h1 h2
        cases h1
      · intro h
        rfl
    · rw [parseBankSMS_some_form n1 message ty hty ha,
          parseBankSMS_some_form n2 message ty hty ha]
      refine ⟨rfl, ?_, ?_⟩
      · intro r1 r2 h1 h2
        have e1 := Option.some.inj h1
        have e2 := Option.some.inj h2
        rw [← e1, ← e2]
        exact ⟨rfl, rfl, rfl, rfl, rfl, rfl⟩
      · intro hts
        cases htv : tsLoop tsREs (normalizeSMS message) with
        | none =>
          rw [htv] at hts
          simp at hts
        | some t =>
          rfl

/-- Witness for C9 at a message whose first timestamp pattern matches: the two
runs coincide exactly. -/
theorem c9_deterministic_witness :
    parseBankSMS (("A").toList) (("debited BDT 5 @ 1:23 PM").toList) =
      parseBankSMS (("B").toList) (("debited BDT 5 @ 1:23 PM").toList) :=
  (c9_deterministic (("debited BDT 5 @ 1:23 PM").toList) (("A").toList)
    (("B").toList)).2.2 (by decide)

/-! Character class facts used by the leftmost-match computations. -/

theorem isWS_false_of_isDigit {c : Char} (h : isDigit c = true) : isWS c = false := by
  unfold isDigit at h
  unfold isWS
  simp only [Bool.and_eq_true, decide_eq_true_eq] at h
  simp only [Bool.or_eq_false_iff, Bool.and_eq_false_iff, decide_eq_false_iff_not]
  omega

theorem clsDC_of_isDigit {c : Char} (h : isDigit c = true) : clsDC c = true := by
  unfold clsDC
  rw [h]
  rfl

theorem notComma_of_isDigit {c : Char} (h : isDigit c = true) : (!(c.toNat = 44 : Bool)) = true := by
  unfold isDigit at h
  simp only [Bool.and_eq_true, decide_eq_true_eq] at h
  simp only [Bool.not_eq_eq_eq_not, Bool.not_true, decide_eq_false_iff_not]
  omega

/-! Description resolution: the ATM clause. -/

theorem execAt_atm (s : List Char) :
    execAt atmRe ((("at UCBL ATM").toList) ++ s) = some [(1, ("UCBL ATM").toList)] := rfl

/-- C6 (amended): the claim reads off literal presence of UCBL ATM or NPSB
ATM, but the source pattern requires the word at plus whitespace in front; the
amended claim: when the merchant clause does not match and the text contains
the substring at-space-UCBL ATM, the description resolves to ATM
Withdrawal. -/
theorem c6_atm_description (ty : TxType) (cleanMessage : List Char)
    (hm : execSearch merchantRe cleanMessage = none)
    (hsub : (("at UCBL ATM").toList) <:+: cleanMessage) :
    resolveDescription ty cleanMessage = ("ATM Withdrawal").toList := by
  obtain ⟨p, s, hps⟩ := hsub
  have hAt : (execSearch atmRe cleanMessage).isSome = true := by
    rw [← hps, List.append_assoc]
    apply execSearch_append_isSome
    apply execSearch_isSome_of_execAt
    rw [execAt_atm s]
    rfl
  unfold resolveDescription
  rw [hm]
  simp [hAt]

/-- Witness for C6 at a concrete message containing the at-prefixed ATM
token and the withdrawn keyword and no merchant clause. -/
theorem c6_atm_description_witness :
    resolveDescription TxType.debit
        (normalizeSMS (("withdrawn BDT 5 at UCBL ATM").toList)) =
      ("ATM Withdrawal").toList :=
  c6_atm_description TxType.debit (normalizeSMS (("withdrawn BDT 5 at UCBL ATM").toList))
    (by decide) (by decide)

/-- Counterexample for C6 as stated: a message that contains the literal
UCBL ATM (not preceded by the word at), contains withdrawn, and has no
merchant clause, yet its description resolves to the default Bank Debit
rather than ATM Withdrawal. -/
theorem c6_counterexample :
    containsCI (("UCBL ATM").toList)
        (normalizeSMS (("withdrawn BDT 5 - UCBL ATM").toList)) = true ∧
    containsCI (("withdrawn").toList)
        (normalizeSMS (("withdrawn BDT 5 - UCBL ATM").toList)) = true ∧
    execSearch merchantRe (normalizeSMS (("withdrawn BDT 5 - UCBL ATM").toList)) = none ∧
    (parseBankSMS (("12:00:00 AM").toList) (("withdrawn BDT 5 - UCBL ATM").toList)).map
        SMSTransaction.description = some (("Bank Debit").toList) := by
  refine ⟨by decide, by decide, by decide, by decide⟩

/-- Counterexample for C2 as stated: the message contains the debit keyword
debited and the valid token BDT 5 with amount five, yet the extracted kind is
credit (the credit vocabulary wins) and the extracted amount is NaN (the
leftmost BDT token captures only a comma), not five. -/
theorem c2_counterexample :
    containsCI (("debited").toList)
        (normalizeSMS (("credited debited BDT , BDT 5").toList)) = true ∧
    containsCI (("BDT 5").toList)
        (normalizeSMS (("credited debited BDT , BDT 5").toList)) = true ∧
    parseBankSMS (("12:00:00 AM").toList) (("credited debited BDT , BDT 5").toList) =
      some { type := TxType.credit, amount := none, balance := some 0,
             timestamp := ("12:00:00 AM").toList, accountNumber := none,
             description := ("Bank Credit").toList, transactionId := none } := by
  refine ⟨by decide, by decide, by decide⟩

/-- C2 (amended): for every message whose normalized text contains a debit
keyword and no credit keyword, if the first amount pattern's reported match
has a capture that, after comma removal, parses to a strictly positive
decimal, then the result has kind debit and exactly that amount; and the two
amount round-trips of the specification hold. -/
theorem c2_debit_amount :
    (∀ message now caps a,
      containsAnyCI debitWords (normalizeSMS message) = true →
      containsAnyCI creditWords (normalizeSMS message) = false →
      execSearch amountRe1 (normalizeSMS message) = some caps →
      parseAmt (stripCommas ((capGet caps 1).getD [])) = some a →
      0 < a →
      ∃ r, parseBankSMS now message = some r ∧ r.type = TxType.debit ∧ r.amount = some a) ∧
    parseAmt (stripCommas (("3,04,017.61").toList)) = some ((30401761 : ℚ) / 100) ∧
    parseAmt (stripCommas (("4,300.00").toList)) = some ((4300 : ℚ)) := by
  refine ⟨?_, ?_, ?_⟩
  · intro message now caps a hd hc hm hp ha
    have hty : detectType (normalizeSMS message) = some TxType.debit := by
      have h1 : (execSearch creditRe (normalizeSMS message)).isSome = false := by
        rw [show creditRe = altLits creditWords from rfl, execSearch_altLits]
        exact hc
      have h2 : (execSearch debitRe (normalizeSMS message)).isSome = true := by
        rw [show debitRe = altLits debitWords from rfl, execSearch_altLits]
        exact hd
      simp [detectType, h1, h2]
    have hloop : amountLoop amountREs (some 0) (normalizeSMS message) = some a := by
      show amountLoop (amountRe1 :: [amountRe2, amountRe3, amountRe4]) (some 0)
        (normalizeSMS message) = some a
      simp only [amountLoop, hm, hp]
      rw [if_pos ha]
    have hne0 : ¬ amountLoop amountREs (some 0) (normalizeSMS message) = some 0 := by
      rw [hloop]
      intro hcontra
      have h0 := Option.some.inj hcontra
      rw [h0] at ha
      exact lt_irrefl 0 ha
    refine ⟨_, parseBankSMS_some_form now message TxType.debit hty hne0, rfl, ?_⟩
    show amountLoop amountREs (some 0) (normalizeSMS message) = some a
    exact hloop
  · have h : parseAmt (stripCommas (("3,04,017.61").toList)) = some (mkRat 30401761 100) := by
      decide
    rw [h, Rat.mkRat_eq_div]
    norm_num
  · have h : parseAmt (stripCommas (("4,300.00").toList)) = some (mkRat 430000 100) := by
      decide
    rw [h, Rat.mkRat_eq_div]
    norm_num

/-- Witness for C2 at a concrete debit message whose first amount pattern
resolves to five. -/
theorem c2_debit_amount_witness :
    ∃ r, parseBankSMS (("12:00:00 AM").toList) (("debited BDT 5").toList) = some r ∧
      r.type = TxType.debit ∧ r.amount = some (mkRat 5 1) :=
  c2_debit_amount.1 (("debited BDT 5").toList) (("12:00:00 AM").toList)
    [(1, ("5").toList)] (mkRat 5 1) (by decide) (by decide) (by decide) (by decide) (by decide)

/-! The reported match of the first amount pattern at a BDT token followed by
digits. -/

theorem execAt_amountRe1_at (ds post : List Char)
    (hne : ds ≠ [])
    (hds : ∀ c ∈ ds, isDigit c = true)
    (hpost : ∀ c ∈ post.head?, clsDC c = false ∧ isDotCh c = false ∧ isDigit c = false) :
    execAt amountRe1 ((("BDT ").toList) ++ (ds ++ post)) = some [(1, ds)] := by
  obtain ⟨d, ds', rfl⟩ : ∃ d ds', ds = d :: ds' := by
    cases ds with
    | nil => exact absurd rfl hne
    | cons d ds' => exact ⟨d, ds', rfl⟩
  have hd : isDigit d = true := hds d (by simp)
  have h1 := @firstM_lit (("BDT").toList) ((("BDT ").toList) ++ ((d :: ds') ++ post))
      ((("BDT").toList), (' ' :: ((d :: ds') ++ post))) rfl
  have h2 := @firstM_star_greedy isWS [' '] ((d :: ds') ++ post)
      (by
        intro c hc
        rw [List.mem_singleton] at hc
        subst hc
        decide)
      (by
        intro c hc
        simp at hc
        subst hc
        exact isWS_false_of_isDigit hd)
  have h3 := @firstM_cls clsDC d (ds' ++ post) (clsDC_of_isDigit hd)
  have h4 := @firstM_star_greedy clsDC ds' post
      (fun c hc => clsDC_of_isDigit (hds c (List.mem_cons_of_mem d hc)))
      (fun c hc => (hpost c hc).1)
  have h5 := firstM_seq h3 h4
  have h6 : FirstM (reOpt isDotCh) post ⟨[], post, []⟩ := by
    show FirstM (.alt (.cls isDotCh) .eps) post ⟨[], post, []⟩
    apply firstM_alt_right
    · cases post with
      | nil => rfl
      | cons q t =>
        have hq : isDotCh q = false := (hpost q (by simp)).2.1
        simp [mres, hq]
    · exact firstM_eps post
  have h7 := @firstM_star_none isDigit false post (fun c hc => (hpost c hc).2.2)
  have h8 := firstM_seq h6 h7
  have h9 := firstM_seq h5 h8
  have h9' : FirstM amountNum ((d :: ds') ++ post) ⟨d :: ds', post, []⟩ := by
    have h9b := h9
    simp only [List.append_nil, List.nil_append, List.singleton_append] at h9b
    exact h9b
  have h10 := @firstM_grp amountNum 1 ((d :: ds') ++ post) _ h9'
  have h11 := firstM_seq h2 h10
  have h12 := firstM_seq h1 h11
  have h13 := execAt_of_firstM h12
  exact h13

/-- C10 (implicit claim): the first amount candidate anchors on the leftmost
BDT token of the whole normalized message, so when an available-balance token
with a strictly positive figure appears before any other BDT token, the
extracted amount is that balance figure.  The position hypothesis says no
earlier position of the normalized text starts with BDT, and the tail
hypothesis says the digits of the figure are immediately followed by a
character that extends neither the digit-comma run, nor a fraction, nor a
digit run. -/
theorem c10_leftmost_bdt_balance
    (message now pre ds post : List Char) (ty : TxType)
    (hclean : normalizeSMS message =
      (pre ++ (("Avl Bal: ").toList)) ++ ((("BDT ").toList) ++ (ds ++ post)))
    (hty : detectType (normalizeSMS message) = some ty)
    (hne : ds ≠ [])
    (hds : ∀ c ∈ ds, isDigit c = true)
    (hpos : 0 < natOfDigits ds)
    (hpost : ∀ c ∈ post.head?, clsDC c = false ∧ isDotCh c = false ∧ isDigit c = false)
    (hpre : ∀ i, i < (pre ++ (("Avl Bal: ").toList)).length →
      isPrefixCI (("BDT").toList) ((normalizeSMS message).drop i) = false) :
    ∃ r, parseBankSMS now message = some r ∧ r.type = ty ∧
      r.amount = some (mkRat (natOfDigits ds) 1) := by
  have hsearch : execSearch amountRe1 (normalizeSMS message) = some [(1, ds)] := by
    rw [hclean] at hpre
    rw [hclean]
    have hnone : ∀ t,
        t <:+ ((pre ++ (("Avl Bal: ").toList)) ++ ((("BDT ").toList) ++ (ds ++ post))) →
        ((("BDT ").toList) ++ (ds ++ post)).length < t.length →
        execAt amountRe1 t = none := by
      intro t ht hl
      have hdrop := suffix_eq_drop ht
      have hlen := ht.length_le
      have hi : ((pre ++ (("Avl Bal: ").toList)) ++
            ((("BDT ").toList) ++ (ds ++ post))).length - t.length
          < (pre ++ (("Avl Bal: ").toList)).length := by
        simp only [List.length_append] at hl hlen ⊢
        omega
      have hfalse := hpre _ hi
      rw [← hdrop] at hfalse
      show execAt (.seq (.lit (("BDT").toList))
        (.seq (.star isWS false) (.grp 1 amountNum))) t = none
      exact execAt_seq_lit_none hfalse
    rw [execSearch_skip (pre ++ (("Avl Bal: ").toList)) hnone]
    exact execSearch_of_execAt_some (execAt_amountRe1_at ds post hne hds hpost)
  have hcap : capGet [(1, ds)] 1 = some ds := by
    simp [capGet]
  have hstrip : stripCommas ds = ds := by
    unfold stripCommas
    rw [List.filter_eq_self]
    intro c hc
    exact notComma_of_isDigit (hds c hc)
  have htake : ds.takeWhile isDigit = ds := List.takeWhile_eq_self_iff.mpr hds
  have hdw : ds.dropWhile isDigit = [] := List.dropWhile_eq_nil_iff.mpr hds
  have hE : ds.isEmpty = false := by
    cases ds with
    | nil => exact absurd rfl hne
    | cons x xs => rfl
  have hparse : parseAmt (stripCommas ((capGet [(1, ds)] 1).getD [])) =
      some (mkRat (natOfDigits ds) 1) := by
    rw [hcap]
    show parseAmt (stripCommas ds) = _
    rw [hstrip]
    simp only [parseAmt, htake, hdw, hE]
    simp
  have hq : (0 : ℚ) < mkRat (natOfDigits ds) 1 := by
    rw [Rat.mkRat_one]
    exact_mod_cast hpos
  have hloop : amountLoop amountREs (some 0) (normalizeSMS message) =
      some (mkRat (natOfDigits ds) 1) := by
    show amountLoop (amountRe1 :: [amountRe2, amountRe3, amountRe4]) (some 0)
      (normalizeSMS message) = _
    simp only [amountLoop, hsearch, hparse]
    rw [if_pos hq]
  have hne0 : ¬ amountLoop amountREs (some 0) (normalizeSMS message) = some 0 := by
    rw [hloop]
    intro hcontra
    have h0 := Option.some.inj hcontra
    rw [h0] at hq
    exact lt_irrefl 0 hq
  refine ⟨_, parseBankSMS_some_form now message ty hty hne0, rfl, ?_⟩
  show amountLoop amountREs (some 0) (normalizeSMS message) = some _
  exact hloop

/-- Witness for C10: the balance token precedes the transaction token, and the
extracted amount is the balance figure 99, not the later 5. -/
theorem c10_leftmost_bdt_balance_witness :
    ∃ r, parseBankSMS (("12:00:00 AM").toList)
        (("debited Avl Bal: BDT 99 then BDT 5").toList) = some r ∧
      r.type = TxType.debit ∧ r.amount = some (mkRat 99 1) := by
  have h := c10_leftmost_bdt_balance (("debited Avl Bal: BDT 99 then BDT 5").toList)
      (("12:00:00 AM").toList) (("debited ").toList) (("99").toList) ((" then BDT 5").toList)
      TxType.debit (by decide) (by decide) (by decide) (by decide) (by decide) (by decide)
      (by decide)
  obtain ⟨r, h1, h2, h3⟩ := h
  refine ⟨r, h1, h2, ?_⟩
  rw [h3]
  rfl
